import Mathlib

/-!
Verification development for the HealthMatrix Service reconciliation engine.

The definitions below are a shallow embedding of the TypeScript sources:
timestamps are modelled as integer epoch milliseconds, Firestore documents
as Lean structures, Firestore collections as Lean lists queried with
List.find?, and the ambient clock (Timestamp.now, Date.now) is threaded as
an explicit parameter.  JavaScript truthiness on strings (the empty string
is falsy) is modelled explicitly where the source relies on it.
-/

/-- Chat status enumeration from firestore.types.ts. -/
inductive ChatStatus where
  | new
  | active
  | archived
  | paused
deriving DecidableEq

/-- Message status enumeration from firestore.types.ts. -/
inductive MessageStatus where
  | sent
  | delivered
  | read
deriving DecidableEq

/-- Terminal or queued status of a notification, from firestore.types.ts. -/
inductive NotificationStatus where
  | pending
  | sent
  | failed
deriving DecidableEq

/-- Booking-record projection stored in a chat mapping sub-ledger
(YClientsRecord in firestore.types.ts).  datetime is epoch millis,
length is the duration in seconds. -/
structure YClientsRecord where
  id : String
  recordId : Int
  deleted : Bool
  serviceTitle : Option String
  serviceId : Option Int
  datetime : Int
  attendance : Int
  length : Int
  payment_status : Int
deriving DecidableEq

/-- Chat document (firestore.types.ts); date is epoch millis.
The optional display-name fields unused by the synced logic are omitted. -/
structure Chat where
  id : String
  yclientsId : String
  users : List String
  title : Option String
  date : Option Int
  status : ChatStatus
  createdAt : Int
  updatedAt : Int
deriving DecidableEq

/-- User document (firestore.types.ts).  isNotificationsEnabled is
TypeScript boolean-or-null-or-undefined: none models an absent field,
some none models null, some (some b) models an explicit boolean. -/
structure User where
  id : String
  yclientsId : String
  name : String
  fcm_token : Option String
  isNotificationsEnabled : Option (Option Bool)
deriving DecidableEq

/-- Identity mapping between a YClients person and an internal user
(YClientsUserMapping in firestore.types.ts). -/
structure YClientsUserMapping where
  id : String
  clientId : Int
  phone : String
  userToken : String
  staffId : Option Int
deriving DecidableEq

/-- Chat mapping document.  The recordId field is written by
createYClientsChatMapping in sync.functions.ts and queried by
getYClientsChatMappingByRecordId, although the declared TypeScript
interface omits it. -/
structure YClientsChatMapping where
  id : String
  clientId : Int
  clientPhone : String
  staffId : Int
  staffPhone : Option String
  recordId : Int
deriving DecidableEq

/-- Message document (firestore.types.ts); timestamps are epoch millis. -/
structure Message where
  id : String
  chatId : String
  fromUserId : String
  toUserId : String
  status : MessageStatus
  createdAt : Int
  updatedAt : Int
deriving DecidableEq

/-- Pending-notification document (firestore.types.ts).  chatId and
messageId are optional references; some "" models a present but empty
string, which JavaScript treats as falsy. -/
structure NotificationDoc where
  id : String
  title : String
  text : String
  fromUserId : String
  toUserId : String
  chatId : Option String
  messageId : Option String
  status : NotificationStatus
  createdAt : Int
  updatedAt : Int
deriving DecidableEq

/-- Client payload of an upstream booking record (yclients.types.ts). -/
structure RecordClient where
  id : Int
  phone : String
deriving DecidableEq

/-- Service payload of an upstream booking record; fields other than the
title are not read by the embedded logic. -/
structure RecordService where
  id : Int
  title : String
deriving DecidableEq

/-- Upstream booking record (YRecord in yclients.types.ts), restricted to
the fields the embedded operations read. -/
structure YRecord where
  id : Int
  staff_id : Int
  client : Option RecordClient
  services : List RecordService
  attendance : Int
deriving DecidableEq

/-- The Firestore collections touched by the sync pipeline, modelled as
lists of documents.  Queries are List.find? (Firestore limit-1 queries
return the first match). -/
structure SyncDb where
  userMappings : List YClientsUserMapping
  users : List User
  chatMappings : List YClientsChatMapping
  chats : List Chat
deriving DecidableEq

/-- firestore.service.ts getYClientsUserMappingByClientId: limit-1 query
on clientId equality. -/
def getYClientsUserMappingByClientId (db : SyncDb) (clientId : Int) :
    Option YClientsUserMapping :=
  db.userMappings.find? (fun m => decide (m.clientId = clientId))

/-- firestore.service.ts getYClientsUserMappingByPhone: limit-1 query on
phone equality. -/
def getYClientsUserMappingByPhone (db : SyncDb) (phone : String) :
    Option YClientsUserMapping :=
  db.userMappings.find? (fun m => decide (m.phone = phone))

/-- Modelled from the spec: getYClientsUserMappingByStaffId is called by
sync-chats.functions.ts and sync.functions.ts but its definition is not
among the provided sources; per spec section 3 identity mappings are keyed
by the numeric provider ids, so it is a limit-1 equality query on the
staffId field. -/
def getYClientsUserMappingByStaffId (db : SyncDb) (staffId : Int) :
    Option YClientsUserMapping :=
  db.userMappings.find? (fun m => decide (m.staffId = some staffId))

/-- firestore.service.ts getYClientsUserMapping: document lookup by id. -/
def getYClientsUserMapping (db : SyncDb) (id : String) :
    Option YClientsUserMapping :=
  db.userMappings.find? (fun m => decide (m.id = id))

/-- firestore.service.ts getUser: document lookup by id. -/
def getUser (db : SyncDb) (id : String) : Option User :=
  db.users.find? (fun u => decide (u.id = id))

/-- firestore.service.ts getUserByYClientsId: limit-1 query on the
yclientsId field. -/
def getUserByYClientsId (db : SyncDb) (yclientsId : String) : Option User :=
  db.users.find? (fun u => decide (u.yclientsId = yclientsId))

/-- firestore.service.ts getYClientsChatMappingByRecordId: limit-1 query
on recordId equality. -/
def getYClientsChatMappingByRecordId (db : SyncDb) (recordId : Int) :
    Option YClientsChatMapping :=
  db.chatMappings.find? (fun m => decide (m.recordId = recordId))

/-- firestore.service.ts getChatByYClientsId: limit-1 query on the
yclientsId field. -/
def getChatByYClientsId (db : SyncDb) (yclientsId : String) : Option Chat :=
  db.chats.find? (fun c => decide (c.yclientsId = yclientsId))

/-! ## sync-chats.functions.ts: chat status projection -/

/-- sync-chats.functions.ts isRecordActive: active when not deleted, the
attendance code is neither 1 nor -1 and the scheduled datetime is at least
now minus three times the duration (length is seconds, times are millis). -/
def isRecordActive (record : YClientsRecord) (now : Int) : Bool :=
  if record.deleted then
    false
  else if record.attendance = 1 ∨ record.attendance = -1 then
    false
  else
    decide (record.datetime ≥ now - record.length * 3 * 1000)

/-- sync-chats.functions.ts determineChatStatus: active when any record in
the sub-ledger is active (the source loops with an early return). -/
def determineChatStatus (records : List YClientsRecord) (now : Int) :
    ChatStatus :=
  if records.any (fun record => isRecordActive record now) then
    ChatStatus.active
  else
    ChatStatus.archived

/-- Title and date pair computed for a chat
(RecordInfo in sync-chats.functions.ts); date is epoch millis. -/
structure RecordInfo where
  title : Option String
  date : Int
deriving DecidableEq

/-- JavaScript Array.reduce keeping the element with the strictly smaller
datetime, as in findRecordForChatInfo (prev kept on ties). -/
def reduceEarliest (a : YClientsRecord) (l : List YClientsRecord) :
    YClientsRecord :=
  l.foldl (fun prev curr =>
    if curr.datetime < prev.datetime then curr else prev) a

/-- JavaScript Array.reduce keeping the element with the strictly larger
datetime, as in findRecordForChatInfo (prev kept on ties). -/
def reduceLatest (a : YClientsRecord) (l : List YClientsRecord) :
    YClientsRecord :=
  l.foldl (fun prev curr =>
    if curr.datetime > prev.datetime then curr else prev) a

/-- sync-chats.functions.ts findRecordForChatInfo: among active records the
one with the earliest datetime, otherwise the record with the latest
datetime; none for an empty sub-ledger. -/
def findRecordForChatInfo (records : List YClientsRecord) (now : Int) :
    Option RecordInfo :=
  match records with
  | [] => none
  | r :: rs =>
    match (r :: rs).filter (fun record => isRecordActive record now) with
    | a :: more =>
      let nearest := reduceEarliest a more
      some { title := nearest.serviceTitle, date := nearest.datetime }
    | [] =>
      let lastRecord := reduceLatest r rs
      some { title := lastRecord.serviceTitle, date := lastRecord.datetime }

/-- The title written by processYClientsChat: recordInfo?.title with the
JavaScript or-null coercion, under which an empty title string becomes
null. -/
def projectedTitle (records : List YClientsRecord) (now : Int) :
    Option String :=
  match findRecordForChatInfo records now with
  | none => none
  | some info =>
    match info.title with
    | none => none
    | some t => if t = "" then none else some t

/-- The date written by processYClientsChat: recordInfo?.date with the
JavaScript or-null coercion, under which epoch 0 becomes null. -/
def projectedDate (records : List YClientsRecord) (now : Int) : Option Int :=
  match findRecordForChatInfo records now with
  | none => none
  | some info => if info.date = 0 then none else some info.date

/-- The participant-list normalization used before comparison in
processYClientsChat: JavaScript Array.sort on strings, modelled as
insertion sort by the lexicographic order. -/
def sortUsers (users : List String) : List String :=
  List.insertionSort (fun a b => a ≤ b) users

/-- Core of sync-chats.functions.ts processYClientsChat after its reads:
given the sub-ledger, the resolved participant list and the existing chat
document, either skip (empty ledger), update the chat when one of status,
title, date or the sorted participant list differs, or create a chat.
The Firestore reads and the generated document id are threaded as
parameters; the result is the stored chat and whether a write happened. -/
def processYClientsChatStep (mappingId : String)
    (records : List YClientsRecord) (users : List String)
    (existing : Option Chat) (now : Int) (freshId : String) (wall : Int) :
    Option Chat × Bool :=
  match records with
  | [] => (existing, false)
  | _ :: _ =>
    match existing with
    | some c =>
      if c.status = determineChatStatus records now
          ∧ c.title = projectedTitle records now
          ∧ c.date = projectedDate records now
          ∧ sortUsers c.users = sortUsers users then
        (some c, false)
      else
        (some { c with
          status := determineChatStatus records now,
          title := projectedTitle records now,
          date := projectedDate records now,
          users := users,
          updatedAt := wall }, true)
    | none =>
      (some { id := freshId, yclientsId := mappingId, users := users,
              title := projectedTitle records now,
              date := projectedDate records now,
              status := determineChatStatus records now,
              createdAt := wall, updatedAt := wall }, true)

/-- sync-chats.functions.ts mapYClientsUsersToUserIds: resolve the client
and the staff member each by id lookup with a phone fallback (the fallback
fires only when the id lookup missed and the phone is truthy), drop
unresolved sides, client first. -/
def mapYClientsUsersToUserIds (db : SyncDb) (clientId : Int)
    (clientPhone : String) (staffId : Int) (staffPhone : Option String) :
    List String :=
  let clientMapping0 := getYClientsUserMappingByClientId db clientId
  let clientMapping :=
    match clientMapping0 with
    | some m => some m
    | none =>
      if clientPhone ≠ "" then getYClientsUserMappingByPhone db clientPhone
      else none
  let clientIds : List String :=
    match clientMapping with
    | some m =>
      match getUserByYClientsId db m.id with
      | some u => [u.id]
      | none => []
    | none => []
  let staffMapping0 := getYClientsUserMappingByStaffId db staffId
  let staffMapping :=
    match staffMapping0 with
    | some m => some m
    | none =>
      match staffPhone with
      | some p => if p ≠ "" then getYClientsUserMappingByPhone db p else none
      | none => none
  let staffIds : List String :=
    match staffMapping with
    | some m =>
      match getUserByYClientsId db m.id with
      | some u => [u.id]
      | none => []
    | none => []
  clientIds ++ staffIds

/-- One side of the participant resolution written compositionally: take
the primary (id-keyed) lookup result, fall back to a phone lookup when the
primary missed and a truthy phone is available, then resolve the mapping
to an internal user id. -/
def resolveParticipantUserId (db : SyncDb)
    (primary : Option YClientsUserMapping) (fallbackPhone : Option String) :
    Option String :=
  let mapping :=
    match primary with
    | some m => some m
    | none =>
      match fallbackPhone with
      | some p => if p ≠ "" then getYClientsUserMappingByPhone db p else none
      | none => none
  mapping.bind (fun m => (getUserByYClientsId db m.id).map (fun u => u.id))

/-! ## sync.functions.ts: on-demand record sync -/

/-- Per-run statistics of the on-demand sync (SyncStats). -/
structure SyncStats where
  recordsProcessed : Nat
  chatsCreated : Nat
  chatsUpdated : Nat
deriving DecidableEq

/-- sync.functions.ts getChatStatusFromRecord. -/
def getChatStatusFromRecord (record : YRecord) : ChatStatus :=
  if record.attendance = 1 then ChatStatus.archived else ChatStatus.active

/-- sync.functions.ts getChatTitleFromRecord: title of the first listed
service, null when the record has no services. -/
def getChatTitleFromRecord (record : YRecord) : Option String :=
  match record.services with
  | [] => none
  | s :: _ => some s.title

/-- sync.functions.ts loadChatParticipants: staff resolved by staff-id
lookup only; the client resolved by phone lookup first with a client-id
fallback; truthiness guards (staff_id and client.id are falsy at 0, the
phone at the empty string) follow the JavaScript conditions. -/
def loadChatParticipants (db : SyncDb) (record : YRecord) : List String :=
  let staffIds : List String :=
    if record.staff_id ≠ 0 then
      match getYClientsUserMappingByStaffId db record.staff_id with
      | some m =>
        match getUserByYClientsId db m.id with
        | some u => [u.id]
        | none => []
      | none => []
    else []
  let clientIds : List String :=
    match record.client with
    | none => []
    | some client =>
      if client.phone ≠ "" then
        match getYClientsUserMappingByPhone db client.phone with
        | some m =>
          match getUserByYClientsId db m.id with
          | some u => [u.id]
          | none => []
        | none =>
          if client.id ≠ 0 then
            match getYClientsUserMappingByClientId db client.id with
            | some m =>
              match getUserByYClientsId db m.id with
              | some u => [u.id]
              | none => []
            | none => []
          else []
      else []
  staffIds ++ clientIds

/-- Deterministic stand-in for the Firestore auto-generated chat mapping
document id. -/
def freshMappingId (db : SyncDb) : String :=
  "mapping-" ++ toString db.chatMappings.length

/-- Deterministic stand-in for the Firestore auto-generated chat document
id. -/
def freshChatId (db : SyncDb) : String :=
  "chat-" ++ toString db.chats.length

/-- firestore.service.ts updateChat restricted to the fields written by
updateExistingChat: merge title and status into the chat document and
stamp updatedAt with the wall clock. -/
def updateChatDoc (db : SyncDb) (chatId : String) (title : Option String)
    (status : ChatStatus) (wall : Int) : SyncDb :=
  { db with chats := db.chats.map (fun c =>
      if c.id = chatId then
        { c with title := title, status := status, updatedAt := wall }
      else c) }

/-- sync.functions.ts processRecord: look the chat mapping up by the
booking-record id; when found, update the mapped chat (updateExistingChat),
otherwise create a mapping and a chat (createNewChat), skipping records
without a client.  The wall clock is a parameter. -/
def processRecord (db : SyncDb) (record : YRecord) (stats : SyncStats)
    (wall : Int) : SyncDb × SyncStats :=
  let chatMapping := getYClientsChatMappingByRecordId db record.id
  let chatStatus := getChatStatusFromRecord record
  let chatTitle := getChatTitleFromRecord record
  let chatUserIds := loadChatParticipants db record
  match chatMapping with
  | some m =>
    match getChatByYClientsId db m.id with
    | some c =>
      (updateChatDoc db c.id chatTitle chatStatus wall,
       { stats with chatsUpdated := stats.chatsUpdated + 1,
                    recordsProcessed := stats.recordsProcessed + 1 })
    | none =>
      (db, { stats with recordsProcessed := stats.recordsProcessed + 1 })
  | none =>
    match record.client with
    | none =>
      (db, { stats with recordsProcessed := stats.recordsProcessed + 1 })
    | some client =>
      let newMapping : YClientsChatMapping :=
        { id := freshMappingId db, clientId := client.id,
          clientPhone := client.phone, staffId := record.staff_id,
          staffPhone := none, recordId := record.id }
      let db1 := { db with chatMappings := db.chatMappings ++ [newMapping] }
      let newChat : Chat :=
        { id := freshChatId db, yclientsId := newMapping.id,
          users := chatUserIds, title := chatTitle, date := none,
          status := ChatStatus.new, createdAt := wall, updatedAt := wall }
      ({ db1 with chats := db1.chats ++ [newChat] },
       { stats with chatsCreated := stats.chatsCreated + 1,
                    recordsProcessed := stats.recordsProcessed + 1 })

/-- The lookup the spec claims the resolver performs before creating a
chat mapping: an existing mapping with matching staff-id and with matching
client-id or matching client-phone.  Stated from the words of the spec, to
be compared with getYClientsChatMappingByRecordId, the lookup the source
performs. -/
def claimedChatMappingLookup (db : SyncDb) (staffId : Int) (clientId : Int)
    (clientPhone : String) : Option YClientsChatMapping :=
  db.chatMappings.find? (fun m =>
    decide (m.staffId = staffId)
    && (decide (m.clientId = clientId) || decide (m.clientPhone = clientPhone)))

/-- The userId field of the on-demand sync request body: absent, a string,
or a value of another runtime type (truthy or falsy). -/
inductive BodyUserId where
  | absent
  | strVal (s : String)
  | nonStringVal (truthy : Bool)
deriving DecidableEq

/-- sync.functions.ts validateSyncRequest: a falsy userId (absent, empty
string, zero, null, false) is rejected as missing, a truthy non-string is
rejected as wrongly typed; both produce a 400, so validation succeeds
exactly on a non-empty string. -/
def validateSyncRequestModel (body : BodyUserId) : Option String :=
  match body with
  | BodyUserId.absent => none
  | BodyUserId.strVal s => if s = "" then none else some s
  | BodyUserId.nonStringVal _ => none

/-- Outcomes of the up-to-two upstream getRecords calls made by
loadRecordsForUser: none models a response with success false or missing
data (which the source turns into a thrown error). -/
structure FetchEnv where
  byId : Option (List YRecord)
  allRecords : Option (List YRecord)
deriving DecidableEq

/-- sync.functions.ts loadRecordsForUser: load records by staff or client
id; on an empty result, load all records and keep those whose client phone
equals the given phone; none models the thrown error on a failed fetch. -/
def loadRecordsForUser (fe : FetchEnv) (phone : String) :
    Option (List YRecord) :=
  match fe.byId with
  | none => none
  | some data =>
    if data.isEmpty then
      match fe.allRecords with
      | none => none
      | some allData =>
        some (allData.filter (fun r =>
          match r.client with
          | some c => decide (c.phone = phone)
          | none => false))
    else some data

/-- Response body of the on-demand sync endpoint: empty (the 204 preflight
answer), a structured error, or the success payload with statistics. -/
inductive RespBody where
  | empty
  | errorBody
  | successBody (message : String) (stats : SyncStats)
deriving DecidableEq

/-- The per-record loop of syncChats: process every record sequentially,
threading the database and the statistics. -/
def runProcessRecords (db : SyncDb) (records : List YRecord)
    (stats : SyncStats) (wall : Int) : SyncDb × SyncStats :=
  records.foldl (fun acc r => processRecord acc.1 r acc.2 wall) (db, stats)

/-- sync.functions.ts syncChats: CORS preflight, method check, body
validation, user and identity-mapping lookups, record fetch and the
per-record loop, returning the HTTP status, the response body and the
updated database. -/
def syncChatsModel (method : String) (body : BodyUserId) (db : SyncDb)
    (fe : FetchEnv) (wall : Int) : (Nat × RespBody) × SyncDb :=
  if method = "OPTIONS" then ((204, RespBody.empty), db)
  else if method ≠ "POST" then ((405, RespBody.errorBody), db)
  else
    match validateSyncRequestModel body with
    | none => ((400, RespBody.errorBody), db)
    | some userId =>
      match getUser db userId with
      | none => ((404, RespBody.errorBody), db)
      | some user =>
        match getYClientsUserMapping db user.yclientsId with
        | none => ((404, RespBody.errorBody), db)
        | some um =>
          match loadRecordsForUser fe um.phone with
          | none => ((500, RespBody.errorBody), db)
          | some records =>
            let res := runProcessRecords db records ⟨0, 0, 0⟩ wall
            ((200, RespBody.successBody "Chats synchronized successfully"
                     res.2), res.1)

/-- The response statuses of the on-demand sync endpoint as amended: 204
for OPTIONS, 405 for other non-POST methods, 400 for an absent, falsy or
non-string userId, 404 for an unknown user or missing identity mapping,
500 for a failed upstream fetch, otherwise 200. -/
def claimedSyncStatus (method : String) (body : BodyUserId) (db : SyncDb)
    (fe : FetchEnv) : Nat :=
  if method = "OPTIONS" then 204
  else if method ≠ "POST" then 405
  else
    match body with
    | BodyUserId.absent => 400
    | BodyUserId.nonStringVal _ => 400
    | BodyUserId.strVal s =>
      if s = "" then 400
      else
        match getUser db s with
        | none => 404
        | some user =>
          match getYClientsUserMapping db user.yclientsId with
          | none => 404
          | some um =>
            match loadRecordsForUser fe um.phone with
            | none => 500
            | some _ => 200

/-! ## sync-chats.functions.ts: notification dispatcher -/

/-- JavaScript truthiness of an optional string: truthy exactly when
present and non-empty. -/
def optStrTruthy (o : Option String) : Bool :=
  match o with
  | some s => decide (s ≠ "")
  | none => false

/-- Environment of one dispatcher pass: the user and message reads, the
delivery outcome the push gateway would report, and the current time in
epoch millis. -/
structure NotifEnv where
  getUser : String → Option User
  getMessage : String → String → Option Message
  pushOutcome : Bool
  now : Int

/-- The externally visible effect of processing one pending notification:
whether it was removed from the pending set, the status of the
sent-history record written (if any), and whether a push delivery was
attempted.  The write semantics of deleteNotification (remove from
pending) and moveNotificationToSent (write a sent-history record with the
outcome status and remove from pending) are modelled from the spec and the
dispatcher doc comment, their firestore.service definitions being absent
from the provided sources. -/
structure NotifEffect where
  removedFromPending : Bool
  sentRecord : Option NotificationStatus
  pushAttempted : Bool
deriving DecidableEq

/-- Steps 5 to 7 of sync-chats.functions.ts processNotification: when the
user has a truthy fcm_token and isNotificationsEnabled is not strictly
false, attempt the push and record sent or failed; otherwise record sent
without a push attempt.  Either way the notification leaves pending. -/
def notifFcmGate (user : User) (env : NotifEnv) : NotifEffect :=
  if optStrTruthy user.fcm_token
      ∧ user.isNotificationsEnabled ≠ some (some false) then
    { removedFromPending := true,
      sentRecord := some (if env.pushOutcome then NotificationStatus.sent
                          else NotificationStatus.failed),
      pushAttempted := true }
  else
    { removedFromPending := true,
      sentRecord := some NotificationStatus.sent,
      pushAttempted := false }

/-- sync-chats.functions.ts processNotification: drop the notification when
the recipient user is missing; when both message references are truthy,
drop it when the message is missing or already read, hold it (no effect)
when the message was updated less than one minute ago, and otherwise fall
through to the push gate; without both references go to the push gate
directly. -/
def processNotification (n : NotificationDoc) (env : NotifEnv) :
    NotifEffect :=
  match env.getUser n.toUserId with
  | none =>
    { removedFromPending := true, sentRecord := none, pushAttempted := false }
  | some user =>
    match n.messageId, n.chatId with
    | some mid, some cid =>
      if mid ≠ "" ∧ cid ≠ "" then
        match env.getMessage cid mid with
        | none =>
          { removedFromPending := true, sentRecord := none,
            pushAttempted := false }
        | some msg =>
          if msg.status = MessageStatus.read then
            { removedFromPending := true, sentRecord := none,
              pushAttempted := false }
          else if env.now - msg.updatedAt < 60000 then
            { removedFromPending := false, sentRecord := none,
              pushAttempted := false }
          else notifFcmGate user env
      else notifFcmGate user env
    | _, _ => notifFcmGate user env

/-! ## Booking Record Fetcher (pagination) -/

/-- Modelled from the spec: one page of the paginated booking-record
provider.  The paginating fetcher used by the record-sync pipeline is not
among the provided sources (the yclientsServiceChain object consumed by
sync.functions.ts is imported but nowhere defined there); per spec section
4.5 the provider serves fixed 100-record pages starting at page 1 and each
response reports the total count, so the provider is modelled as serving
100-record slices of a fixed upstream record list. -/
def fetchRecordsPage (upstream : List YRecord) (page : Nat) : List YRecord :=
  (upstream.drop ((page - 1) * 100)).take 100

/-- Modelled from the spec: the page loop of the Booking Record Fetcher.
Request the current page, and keep requesting subsequent pages while
page times page-size is below the reported total count (the length of the
upstream list); return the concatenated records and the number of page
requests made. -/
def fetchGo (upstream : List YRecord) (page : Nat) : List YRecord × Nat :=
  if h : page * 100 < upstream.length then
    let rest := fetchGo upstream (page + 1)
    (fetchRecordsPage upstream page ++ rest.1, rest.2 + 1)
  else
    (fetchRecordsPage upstream page, 1)
termination_by upstream.length + 100 - page * 100
decreasing_by omega

/-- Modelled from the spec: the complete fetch starts at page 1. -/
def fetchAllRecords (upstream : List YRecord) : List YRecord × Nat :=
  fetchGo upstream 1

/-! ## Helper lemmas -/

/-- The earliest-datetime reduce returns a member of the list it scans. -/
theorem reduceEarliest_mem (l : List YClientsRecord) (a : YClientsRecord) :
    reduceEarliest a l ∈ a :: l := by
  induction l generalizing a with
  | nil => simp [reduceEarliest]
  | cons c l ih =>
    by_cases hc : c.datetime < a.datetime
    · have step : reduceEarliest a (c :: l) = reduceEarliest c l := by
        simp [reduceEarliest, hc]
      rw [step]
      exact List.mem_cons.mpr (Or.inr (ih c))
    · have step : reduceEarliest a (c :: l) = reduceEarliest a l := by
        simp [reduceEarliest, hc]
      rw [step]
      rcases List.mem_cons.mp (ih a) with h1 | h2
      · exact List.mem_cons.mpr (Or.inl h1)
      · exact List.mem_cons.mpr (Or.inr (List.mem_cons.mpr (Or.inr h2)))

/-- The earliest-datetime reduce is a lower bound for every element of the
list it scans. -/
theorem reduceEarliest_le (l : List YClientsRecord) (a : YClientsRecord) :
    ∀ x ∈ a :: l, (reduceEarliest a l).datetime ≤ x.datetime := by
  induction l generalizing a with
  | nil =>
    intro x hx
    simp at hx
    simp [reduceEarliest, hx]
  | cons c l ih =>
    intro x hx
    by_cases hc : c.datetime < a.datetime
    · have step : reduceEarliest a (c :: l) = reduceEarliest c l := by
        simp [reduceEarliest, hc]
      rw [step]
      rcases List.mem_cons.mp hx with h1 | h2
      · subst h1
        have h := ih c c (List.mem_cons_self _ _)
        omega
      · exact ih c x h2
    · have step : reduceEarliest a (c :: l) = reduceEarliest a l := by
        simp [reduceEarliest, hc]
      rw [step]
      rcases List.mem_cons.mp hx with h1 | h2
      · rw [h1]
        exact ih a a (List.mem_cons_self _ _)
      · rcases List.mem_cons.mp h2 with h3 | h4
        · rw [h3]
          have h := ih a a (List.mem_cons_self _ _)
          omega
        · exact ih a x (List.mem_cons.mpr (Or.inr h4))

/-- The latest-datetime reduce returns a member of the list it scans. -/
theorem reduceLatest_mem (l : List YClientsRecord) (a : YClientsRecord) :
    reduceLatest a l ∈ a :: l := by
  induction l generalizing a with
  | nil => simp [reduceLatest]
  | cons c l ih =>
    by_cases hc : c.datetime > a.datetime
    · have step : reduceLatest a (c :: l) = reduceLatest c l := by
        simp [reduceLatest, hc]
      rw [step]
      exact List.mem_cons.mpr (Or.inr (ih c))
    · have step : reduceLatest a (c :: l) = reduceLatest a l := by
        simp [reduceLatest, hc]
      rw [step]
      rcases List.mem_cons.mp (ih a) with h1 | h2
      · exact List.mem_cons.mpr (Or.inl h1)
      · exact List.mem_cons.mpr (Or.inr (List.mem_cons.mpr (Or.inr h2)))

/-- The latest-datetime reduce is an upper bound for every element of the
list it scans. -/
theorem reduceLatest_ge (l : List YClientsRecord) (a : YClientsRecord) :
    ∀ x ∈ a :: l, x.datetime ≤ (reduceLatest a l).datetime := by
  induction l generalizing a with
  | nil =>
    intro x hx
    simp at hx
    simp [reduceLatest, hx]
  | cons c l ih =>
    intro x hx
    by_cases hc : c.datetime > a.datetime
    · have step : reduceLatest a (c :: l) = reduceLatest c l := by
        simp [reduceLatest, hc]
      rw [step]
      rcases List.mem_cons.mp hx with h1 | h2
      · subst h1
        have h := ih c c (List.mem_cons_self _ _)
        omega
      · exact ih c x h2
    · have step : reduceLatest a (c :: l) = reduceLatest a l := by
        simp [reduceLatest, hc]
      rw [step]
      rcases List.mem_cons.mp hx with h1 | h2
      · rw [h1]
        exact ih a a (List.mem_cons_self _ _)
      · rcases List.mem_cons.mp h2 with h3 | h4
        · rw [h3]
          have h := ih a a (List.mem_cons_self _ _)
          omega
        · exact ih a x (List.mem_cons.mpr (Or.inr h4))

/-! ## Claim theorems -/

/-- C2: a booking-record projection is classified active exactly when the
deleted flag is false, the attendance code is neither 1 nor -1, and the
scheduled datetime is at least now minus three times the duration (length
in seconds, times in millis); the boundary is inclusive, a record exactly
at the threshold is active and one second further in the past is not, and
a deleted or attendance-settled record is never active. -/
theorem isRecordActive_characterization :
    (∀ (r : YClientsRecord) (now : Int),
      isRecordActive r now = true
        ↔ (r.deleted = false ∧ r.attendance ≠ 1 ∧ r.attendance ≠ -1
            ∧ now - r.length * 3 * 1000 ≤ r.datetime))
    ∧ (∀ (r : YClientsRecord) (now : Int),
        isRecordActive
          { r with deleted := false, attendance := 0,
                   datetime := now - r.length * 3 * 1000 } now = true)
    ∧ (∀ (r : YClientsRecord) (now : Int),
        isRecordActive
          { r with deleted := false, attendance := 0,
                   datetime := now - r.length * 3 * 1000 - 1000 } now
          = false)
    ∧ (∀ (r : YClientsRecord) (now : Int),
        r.deleted = true ∨ r.attendance = 1 ∨ r.attendance = -1 →
          isRecordActive r now = false) := by
  refine ⟨?_, ?_, ?_, ?_⟩
  · intro r now
    unfold isRecordActive
    by_cases hd : r.deleted
    · simp [hd]
    · by_cases ha : r.attendance = 1 ∨ r.attendance = -1
      · simp [hd, ha]
        omega
      · simp [hd, ha, ge_iff_le]
        omega
  · intro r now
    unfold isRecordActive
    simp
  · intro r now
    unfold isRecordActive
    simp
  · intro r now h
    unfold isRecordActive
    rcases h with h | h | h
    · simp [h]
    · simp [h]
    · by_cases hd : r.deleted
      · simp [hd]
      · simp [hd, h]

/-- C3: on a non-empty sub-ledger the projector derives status active
exactly when some record is active and archived otherwise, and the
displayed title and date come from an active record of minimal datetime
when one exists, else from a record of maximal datetime. -/
theorem chatStatusProjector_characterization :
    ∀ (records : List YClientsRecord) (now : Int), records ≠ [] →
      ((determineChatStatus records now = ChatStatus.active
          ↔ ∃ r ∈ records, isRecordActive r now = true)
        ∧ (determineChatStatus records now = ChatStatus.archived
          ↔ ¬ ∃ r ∈ records, isRecordActive r now = true))
      ∧ ∃ info, findRecordForChatInfo records now = some info
        ∧ ((∃ r ∈ records, isRecordActive r now = true) →
            ∃ r ∈ records, isRecordActive r now = true
              ∧ info.title = r.serviceTitle ∧ info.date = r.datetime
              ∧ ∀ q ∈ records, isRecordActive q now = true →
                  r.datetime ≤ q.datetime)
        ∧ ((¬ ∃ r ∈ records, isRecordActive r now = true) →
            ∃ r ∈ records, info.title = r.serviceTitle
              ∧ info.date = r.datetime
              ∧ ∀ q ∈ records, q.datetime ≤ r.datetime) := by
  intro records now hne
  match records, hne with
  | r :: rs, _ =>
    constructor
    · by_cases hany : (r :: rs).any (fun x => isRecordActive x now) = true
      · constructor
        · simp only [determineChatStatus, hany, if_true]
          simp only [List.any_eq_true] at hany
          simpa using hany
        · simp only [determineChatStatus, hany, if_true]
          simp only [List.any_eq_true] at hany
          constructor
          · intro h
            cases h
          · intro h
            exact absurd (by simpa using hany) h
      · constructor
        · simp only [determineChatStatus, hany, if_false]
          simp only [List.any_eq_true] at hany
          constructor
          · intro h
            cases h
          · intro h
            exact absurd (by simpa using h) hany
        · simp only [determineChatStatus, hany, if_false]
          simp only [List.any_eq_true] at hany
          constructor
          · intro _ h
            exact hany (by simpa using h)
          · intro _
            rfl
    · cases hf : (r :: rs).filter (fun x => isRecordActive x now) with
      | cons a more =>
        refine ⟨{ title := (reduceEarliest a more).serviceTitle,
                  date := (reduceEarliest a more).datetime }, ?_, ?_, ?_⟩
        · simp only [findRecordForChatInfo, hf]
        · intro _
          have hmem : reduceEarliest a more ∈ a :: more :=
            reduceEarliest_mem more a
          rw [← hf] at hmem
          have hmem2 := List.mem_filter.mp hmem
          refine ⟨reduceEarliest a more, hmem2.1, by simpa using hmem2.2,
            rfl, rfl, ?_⟩
          intro q hq hact
          have hqf : q ∈ (r :: rs).filter (fun x => isRecordActive x now) :=
            List.mem_filter.mpr ⟨hq, by simpa using hact⟩
          rw [hf] at hqf
          exact reduceEarliest_le more a q hqf
        · intro hno
          exfalso
          have ha : a ∈ (r :: rs).filter (fun x => isRecordActive x now) := by
            rw [hf]
            exact List.mem_cons_self a more
          have ha2 := List.mem_filter.mp ha
          exact hno ⟨a, ha2.1, by simpa using ha2.2⟩
      | nil =>
        have hno : ¬ ∃ x ∈ r :: rs, isRecordActive x now = true := by
          intro h
          obtain ⟨x, hx, hact⟩ := h
          have : x ∈ (r :: rs).filter (fun y => isRecordActive y now) :=
            List.mem_filter.mpr ⟨hx, by simpa using hact⟩
          rw [hf] at this
          cases this
        refine ⟨{ title := (reduceLatest r rs).serviceTitle,
                  date := (reduceLatest r rs).datetime }, ?_, ?_, ?_⟩
        · simp only [findRecordForChatInfo, hf]
        · intro h
          exact absurd h hno
        · intro _
          exact ⟨reduceLatest r rs, reduceLatest_mem rs r, rfl, rfl,
            fun q hq => reduceLatest_ge rs r q hq⟩

/-- A concrete active booking-record projection used by witnesses. -/
def sampleActiveRecord : YClientsRecord :=
  { id := "s", recordId := 2, deleted := false,
    serviceTitle := some "Massage", serviceId := some 7, datetime := 500000,
    attendance := 0, length := 60, payment_status := 0 }

/-- C3 witness: the projector characterization applied to a concrete
one-record sub-ledger at a concrete clock. -/
theorem chatStatusProjector_characterization_witness :
    ([sampleActiveRecord] ≠ []
        ∧ determineChatStatus [sampleActiveRecord] 500000
            = ChatStatus.active)
      ∧ ((determineChatStatus [sampleActiveRecord] 500000 = ChatStatus.active
          ↔ ∃ r ∈ [sampleActiveRecord], isRecordActive r 500000 = true)
        ∧ (determineChatStatus [sampleActiveRecord] 500000
            = ChatStatus.archived
          ↔ ¬ ∃ r ∈ [sampleActiveRecord], isRecordActive r 500000 = true))
      ∧ ∃ info, findRecordForChatInfo [sampleActiveRecord] 500000 = some info
        ∧ ((∃ r ∈ [sampleActiveRecord], isRecordActive r 500000 = true) →
            ∃ r ∈ [sampleActiveRecord], isRecordActive r 500000 = true
              ∧ info.title = r.serviceTitle ∧ info.date = r.datetime
              ∧ ∀ q ∈ [sampleActiveRecord], isRecordActive q 500000 = true →
                  r.datetime ≤ q.datetime)
        ∧ ((¬ ∃ r ∈ [sampleActiveRecord], isRecordActive r 500000 = true) →
            ∃ r ∈ [sampleActiveRecord], info.title = r.serviceTitle
              ∧ info.date = r.datetime
              ∧ ∀ q ∈ [sampleActiveRecord], q.datetime ≤ r.datetime) := by
  have h := chatStatusProjector_characterization [sampleActiveRecord] 500000
    (by simp)
  exact ⟨⟨by simp, by decide⟩, h.1, h.2⟩

/-- C4: running the projection step a second time on the chat stored by
the first pass, with the sub-ledger, the resolved participants and the
clock unchanged, performs no write; for an existing chat the first pass
writes exactly when status, title, date or the sorted participant list
differs; and the participant-list comparison is order-independent. -/
theorem chatProjection_idempotent :
    ∀ (mappingId : String) (records : List YClientsRecord)
      (users : List String) (existing : Option Chat) (now : Int)
      (fid1 : String) (w1 : Int) (fid2 : String) (w2 : Int),
      processYClientsChatStep mappingId records users
          (processYClientsChatStep mappingId records users existing now fid1
            w1).1 now fid2 w2
        = ((processYClientsChatStep mappingId records users existing now fid1
            w1).1, false)
      ∧ (∀ c, existing = some c → records ≠ [] →
          ((processYClientsChatStep mappingId records users existing now fid1
              w1).2 = true
            ↔ ¬(c.status = determineChatStatus records now
                ∧ c.title = projectedTitle records now
                ∧ c.date = projectedDate records now
                ∧ sortUsers c.users = sortUsers users)))
      ∧ (∀ u1 u2 : List String, u1.Perm u2 → sortUsers u1 = sortUsers u2) := by
  intro mappingId records users existing now fid1 w1 fid2 w2
  refine ⟨?_, ?_, ?_⟩
  · match records with
    | [] => rfl
    | q :: qs =>
      match existing with
      | none =>
        have h0 : (processYClientsChatStep mappingId (q :: qs) users none
              now fid1 w1).1
            = some { id := fid1, yclientsId := mappingId, users := users,
                     title := projectedTitle (q :: qs) now,
                     date := projectedDate (q :: qs) now,
                     status := determineChatStatus (q :: qs) now,
                     createdAt := w1, updatedAt := w1 } := rfl
        rw [h0]
        rw [processYClientsChatStep]
        rw [if_pos ⟨rfl, rfl, rfl, rfl⟩]
      | some c =>
        by_cases hcond : c.status = determineChatStatus (q :: qs) now
            ∧ c.title = projectedTitle (q :: qs) now
            ∧ c.date = projectedDate (q :: qs) now
            ∧ sortUsers c.users = sortUsers users
        · have h1 : processYClientsChatStep mappingId (q :: qs) users
              (some c) now fid1 w1 = (some c, false) := by
            rw [processYClientsChatStep, if_pos hcond]
          rw [h1]
          rw [processYClientsChatStep, if_pos hcond]
        · have h1 : processYClientsChatStep mappingId (q :: qs) users
              (some c) now fid1 w1
              = (some { c with
                  status := determineChatStatus (q :: qs) now,
                  title := projectedTitle (q :: qs) now,
                  date := projectedDate (q :: qs) now,
                  users := users, updatedAt := w1 }, true) := by
            rw [processYClientsChatStep, if_neg hcond]
          rw [h1]
          rw [processYClientsChatStep]
          rw [if_pos ⟨rfl, rfl, rfl, rfl⟩]
  · intro c hex hne
    subst hex
    match records, hne with
    | q :: qs, _ =>
      by_cases hcond : c.status = determineChatStatus (q :: qs) now
          ∧ c.title = projectedTitle (q :: qs) now
          ∧ c.date = projectedDate (q :: qs) now
          ∧ sortUsers c.users = sortUsers users
      · rw [processYClientsChatStep, if_pos hcond]
        simp [hcond]
      · rw [processYClientsChatStep, if_neg hcond]
        simp [hcond]
  · intro u1 u2 hperm
    have hp : List.Perm (sortUsers u1) (sortUsers u2) :=
      ((List.perm_insertionSort _ u1).trans hperm).trans
        (List.perm_insertionSort _ u2).symm
    exact List.eq_of_perm_of_sorted hp
      (List.sorted_insertionSort _ u1) (List.sorted_insertionSort _ u2)

/-- A concrete stored chat document used by the C4 witness. -/
def sampleStoredChat : Chat :=
  { id := "chat-w", yclientsId := "m", users := ["x"],
    title := some "Massage", date := some 500000,
    status := ChatStatus.archived, createdAt := 1, updatedAt := 1 }

/-- C4 witness: the idempotence theorem applied to a concrete sub-ledger,
participant list and stored chat, with its inner hypotheses discharged at
concrete values. -/
theorem chatProjection_idempotent_witness :
    (some sampleStoredChat = some sampleStoredChat
        ∧ ([sampleActiveRecord] ≠ [])
        ∧ List.Perm ["b", "a"] ["a", "b"])
      ∧ ((processYClientsChatStep "m" [sampleActiveRecord] ["x"]
            (some sampleStoredChat) 500000 "f" 7).2 = true
          ↔ ¬(sampleStoredChat.status
                = determineChatStatus [sampleActiveRecord] 500000
              ∧ sampleStoredChat.title
                = projectedTitle [sampleActiveRecord] 500000
              ∧ sampleStoredChat.date
                = projectedDate [sampleActiveRecord] 500000
              ∧ sortUsers sampleStoredChat.users = sortUsers ["x"]))
      ∧ sortUsers ["b", "a"] = sortUsers ["a", "b"] := by
  have h := chatProjection_idempotent "m" [sampleActiveRecord] ["x"]
    (some sampleStoredChat) 500000 "f" 7 "g" 9
  exact ⟨⟨rfl, by simp, by decide⟩,
    h.2.1 sampleStoredChat rfl (by simp),
    h.2.2 ["b", "a"] ["a", "b"] (by decide)⟩

/-- Each side of the imperative resolution collapses to the compositional
option chain. -/
theorem resolveSide_toList (db : SyncDb)
    (mapping : Option YClientsUserMapping) :
    (match mapping with
     | some m =>
       match getUserByYClientsId db m.id with
       | some u => [u.id]
       | none => []
     | none => [])
    = (mapping.bind
        (fun m => (getUserByYClientsId db m.id).map (fun u => u.id))).toList
    := by
  cases mapping with
  | none => rfl
  | some m => cases hu : getUserByYClientsId db m.id <;> simp [hu]

/-- C5: the participant resolver equals, for every database and identity
tuple, the concatenation of the client-side and staff-side resolutions,
each being an id-keyed lookup with a phone fallback taken only when the id
lookup misses and the phone is available, resolved to an internal user and
silently dropped when unresolved; the result therefore has at most two
entries, client first. -/
theorem participantResolver_characterization :
    ∀ (db : SyncDb) (clientId : Int) (clientPhone : String) (staffId : Int)
      (staffPhone : Option String),
      mapYClientsUsersToUserIds db clientId clientPhone staffId staffPhone
        = (resolveParticipantUserId db
            (getYClientsUserMappingByClientId db clientId)
            (some clientPhone)).toList
          ++ (resolveParticipantUserId db
              (getYClientsUserMappingByStaffId db staffId)
              staffPhone).toList
      ∧ (mapYClientsUsersToUserIds db clientId clientPhone staffId
          staffPhone).length ≤ 2 := by
  intro db clientId clientPhone staffId staffPhone
  have heq : mapYClientsUsersToUserIds db clientId clientPhone staffId
      staffPhone
      = (resolveParticipantUserId db
          (getYClientsUserMappingByClientId db clientId)
          (some clientPhone)).toList
        ++ (resolveParticipantUserId db
            (getYClientsUserMappingByStaffId db staffId)
            staffPhone).toList := by
    simp only [mapYClientsUsersToUserIds, resolveParticipantUserId]
    rw [resolveSide_toList, resolveSide_toList]
  refine ⟨heq, ?_⟩
  rw [heq]
  cases resolveParticipantUserId db
      (getYClientsUserMappingByClientId db clientId) (some clientPhone) <;>
    cases resolveParticipantUserId db
      (getYClientsUserMappingByStaffId db staffId) staffPhone <;>
    simp [Option.toList]

/-! ## C1: chat mapping find-before-create -/

/-- The chat mapping present before the C1 scenario runs: staff 1 and
client 2 with phone p, recorded for booking record 10. -/
def existingMappingC1 : YClientsChatMapping :=
  { id := "m0", clientId := 2, clientPhone := "p", staffId := 1,
    staffPhone := none, recordId := 10 }

/-- The database of the C1 scenario: one chat mapping and nothing else. -/
def dbC1 : SyncDb :=
  { userMappings := [], users := [], chatMappings := [existingMappingC1],
    chats := [] }

/-- A later booking record of the same staff 1 and client 2 (same phone p)
under a fresh record id 11. -/
def recordC1 : YRecord :=
  { id := 11, staff_id := 1, client := some { id := 2, phone := "p" },
    services := [], attendance := 0 }

/-- C1 counterexample: the database already holds a mapping matching the
staff-id and the client-id and the client-phone of the incoming record
(the lookup the claim describes finds it), yet the resolver, which looks
up by record id only, misses it and creates a second mapping for the same
(staff-id, client-id, client-phone) triple. -/
theorem chatMapping_find_before_create_counterexample :
    claimedChatMappingLookup dbC1 1 2 "p" = some existingMappingC1
      ∧ getYClientsChatMappingByRecordId dbC1 recordC1.id = none
      ∧ ((processRecord dbC1 recordC1 ⟨0, 0, 0⟩ 0).1.chatMappings.map
          (fun m => (m.staffId, m.clientId, m.clientPhone)))
        = [(1, 2, "p"), (1, 2, "p")] := by
  refine ⟨?_, ?_, ?_⟩ <;> decide

/-- C1 as amended: the find-before-create of the chat mapping resolver is
keyed by the booking-record id: a record whose id already has a mapping
creates nothing, a new mapping is created only when the record-id lookup
misses and the record has a client (and it carries that record id), and
reprocessing the same record leaves the mapping collection unchanged. -/
theorem chatMapping_find_before_create_by_recordId :
    ∀ (db : SyncDb) (r : YRecord) (s : SyncStats) (w : Int),
      (∀ m, getYClientsChatMappingByRecordId db r.id = some m →
        (processRecord db r s w).1.chatMappings = db.chatMappings)
      ∧ (getYClientsChatMappingByRecordId db r.id = none → r.client ≠ none →
          ∃ nm, (processRecord db r s w).1.chatMappings
              = db.chatMappings ++ [nm]
            ∧ nm.recordId = r.id)
      ∧ (∀ s2 w2,
          (processRecord (processRecord db r s w).1 r s2 w2).1.chatMappings
            = (processRecord db r s w).1.chatMappings) := by
  intro db r s w
  have hsome : ∀ (db2 : SyncDb) (s2 : SyncStats) (w2 : Int) m,
      getYClientsChatMappingByRecordId db2 r.id = some m →
      (processRecord db2 r s2 w2).1.chatMappings = db2.chatMappings := by
    intro db2 s2 w2 m hm
    simp only [processRecord, hm]
    cases hc : getChatByYClientsId db2 m.id <;> simp [hc, updateChatDoc]
  refine ⟨fun m hm => hsome db s w m hm, ?_, ?_⟩
  · intro hnone hclient
    simp only [processRecord, hnone]
    match hc : r.client with
    | none => exact absurd hc hclient
    | some client =>
      simp only [hc]
      exact ⟨{ id := freshMappingId db, clientId := client.id,
               clientPhone := client.phone, staffId := r.staff_id,
               staffPhone := none, recordId := r.id }, rfl, rfl⟩
  · intro s2 w2
    cases hm : getYClientsChatMappingByRecordId db r.id with
    | some m =>
      have hmaps : (processRecord db r s w).1.chatMappings
          = db.chatMappings := hsome db s w m hm
      have hm2 : getYClientsChatMappingByRecordId
          (processRecord db r s w).1 r.id = some m := by
        unfold getYClientsChatMappingByRecordId
        rw [hmaps]
        exact hm
      exact hsome (processRecord db r s w).1 s2 w2 m hm2
    | none =>
      cases hc : r.client with
      | none =>
        have hmaps : (processRecord db r s w).1 = db := by
          simp only [processRecord, hm, hc]
        rw [hmaps]
        simp only [processRecord, hm, hc]
      | some client =>
        have hmaps : (processRecord db r s w).1.chatMappings
            = db.chatMappings
              ++ [{ id := freshMappingId db, clientId := client.id,
                    clientPhone := client.phone, staffId := r.staff_id,
                    staffPhone := none, recordId := r.id }] := by
          simp only [processRecord, hm, hc]
        have hm2 : getYClientsChatMappingByRecordId
            (processRecord db r s w).1 r.id
            = some { id := freshMappingId db, clientId := client.id,
                     clientPhone := client.phone, staffId := r.staff_id,
                     staffPhone := none, recordId := r.id } := by
          unfold getYClientsChatMappingByRecordId
          rw [hmaps, List.find?_append]
          have h1 : db.chatMappings.find?
              (fun x => decide (x.recordId = r.id)) = none := hm
          rw [h1]
          simp
        exact hsome (processRecord db r s w).1 s2 w2 _ hm2

/-- C1 amended-claim witness: the record-id-keyed theorem applied to the
concrete C1 database after the duplicate-creating step, discharging the
record-id hit and miss hypotheses at concrete inputs. -/
theorem chatMapping_find_before_create_by_recordId_witness :
    getYClientsChatMappingByRecordId dbC1 10 = some existingMappingC1
      ∧ (processRecord dbC1
          { id := 10, staff_id := 1,
            client := some { id := 2, phone := "p" }, services := [],
            attendance := 0 } ⟨0, 0, 0⟩ 0).1.chatMappings
        = dbC1.chatMappings := by
  refine ⟨by decide, ?_⟩
  exact (chatMapping_find_before_create_by_recordId dbC1
    { id := 10, staff_id := 1, client := some { id := 2, phone := "p" },
      services := [], attendance := 0 } ⟨0, 0, 0⟩ 0).1
    existingMappingC1 (by decide)

/-- The record list returned by the page loop from page n onward is the
upstream suffix starting at the offset of page n. -/
theorem fetchGo_fst (u : List YRecord) :
    ∀ (k n : Nat), u.length + 100 - n * 100 ≤ k → 1 ≤ n →
      (fetchGo u n).1 = u.drop ((n - 1) * 100) := by
  intro k
  induction k with
  | zero =>
    intro n hk hn
    rw [fetchGo]
    have hguard : ¬ n * 100 < u.length := by omega
    rw [dif_neg hguard]
    unfold fetchRecordsPage
    apply List.take_of_length_le
    simp only [List.length_drop]
    omega
  | succ k ih =>
    intro n hk hn
    rw [fetchGo]
    by_cases hguard : n * 100 < u.length
    · rw [dif_pos hguard]
      show fetchRecordsPage u n ++ (fetchGo u (n + 1)).1
        = u.drop ((n - 1) * 100)
      rw [ih (n + 1) (by omega) (by omega)]
      unfold fetchRecordsPage
      have hdd : (u.drop ((n - 1) * 100)).drop 100 = u.drop ((n + 1 - 1) * 100)
          := by
        rw [List.drop_drop]
        congr 1
        omega
      rw [← hdd]
      exact List.take_append_drop 100 (u.drop ((n - 1) * 100))
    · rw [dif_neg hguard]
      unfold fetchRecordsPage
      apply List.take_of_length_le
      simp only [List.length_drop]
      omega

/-- The number of page requests made by the page loop from page n onward. -/
theorem fetchGo_snd (u : List YRecord) :
    ∀ (k n : Nat), u.length + 100 - n * 100 ≤ k → 1 ≤ n →
      (fetchGo u n).2 = (u.length - (n - 1) * 100 - 1) / 100 + 1 := by
  intro k
  induction k with
  | zero =>
    intro n hk hn
    rw [fetchGo]
    have hguard : ¬ n * 100 < u.length := by omega
    rw [dif_neg hguard]
    show 1 = (u.length - (n - 1) * 100 - 1) / 100 + 1
    have hlt : u.length - (n - 1) * 100 - 1 < 100 := by omega
    rw [Nat.div_eq_of_lt hlt]
  | succ k ih =>
    intro n hk hn
    rw [fetchGo]
    by_cases hguard : n * 100 < u.length
    · rw [dif_pos hguard]
      show (fetchGo u (n + 1)).2 + 1
        = (u.length - (n - 1) * 100 - 1) / 100 + 1
      rw [ih (n + 1) (by omega) (by omega)]
      have h1 : u.length - (n - 1) * 100 - 1
          = (u.length - (n + 1 - 1) * 100 - 1) + 100 := by omega
      rw [h1, Nat.add_div_right _ (by norm_num)]
    · rw [dif_neg hguard]
      show 1 = (u.length - (n - 1) * 100 - 1) / 100 + 1
      have hlt : u.length - (n - 1) * 100 - 1 < 100 := by omega
      rw [Nat.div_eq_of_lt hlt]

/-- C7: the paginated fetcher, requesting 100-record pages from page 1
while page times page-size stays below the reported total, returns the
whole upstream sequence in upstream order for every upstream list, makes
one request per started page, and in particular returns all 250 records of
a 250-record provider in exactly 3 page requests. -/
theorem bookingRecordFetcher_pagination :
    (∀ upstream : List YRecord, (fetchAllRecords upstream).1 = upstream)
    ∧ (∀ upstream : List YRecord,
        (fetchAllRecords upstream).2 = (upstream.length - 1) / 100 + 1)
    ∧ (∀ r : YRecord,
        fetchAllRecords (List.replicate 250 r) = (List.replicate 250 r, 3))
    := by
  have h1 : ∀ u : List YRecord, (fetchAllRecords u).1 = u := by
    intro u
    have h := fetchGo_fst u (u.length + 100) 1 (by omega) (by omega)
    simpa [fetchAllRecords] using h
  have h2 : ∀ u : List YRecord,
      (fetchAllRecords u).2 = (u.length - 1) / 100 + 1 := by
    intro u
    have h := fetchGo_snd u (u.length + 100) 1 (by omega) (by omega)
    simpa [fetchAllRecords] using h
  refine ⟨h1, h2, ?_⟩
  intro r
  rw [Prod.ext_iff]
  refine ⟨h1 (List.replicate 250 r), ?_⟩
  rw [h2 (List.replicate 250 r), List.length_replicate]

/-! ## C8: on-demand sync endpoint statuses -/

/-- C8 as amended: the endpoint answers 204 to OPTIONS, 405 to other
non-POST methods, 400 when the userId of the body is absent, falsy (in
particular the empty string) or not a string, 404 when the user or the
identity mapping is missing, 500 when the upstream fetch fails, and
otherwise 200 with a success body carrying the statistics. -/
theorem syncChats_status_characterization :
    ∀ (method : String) (body : BodyUserId) (db : SyncDb) (fe : FetchEnv)
      (wall : Int),
      (syncChatsModel method body db fe wall).1.1
        = claimedSyncStatus method body db fe
      ∧ ((syncChatsModel method body db fe wall).1.1 = 200 →
          ∃ msg st, (syncChatsModel method body db fe wall).1.2
            = RespBody.successBody msg st) := by
  intro method body db fe wall
  by_cases hopt : method = "OPTIONS"
  · simp [syncChatsModel, claimedSyncStatus, hopt]
  · by_cases hpost : method = "POST"
    · cases body with
      | absent =>
        simp [syncChatsModel, claimedSyncStatus, hopt, hpost,
          validateSyncRequestModel]
      | nonStringVal t =>
        simp [syncChatsModel, claimedSyncStatus, hopt, hpost,
          validateSyncRequestModel]
      | strVal sVal =>
        by_cases hs : sVal = ""
        · simp [syncChatsModel, claimedSyncStatus, hopt, hpost,
            validateSyncRequestModel, hs]
        · simp only [syncChatsModel, claimedSyncStatus, hopt, hpost,
            validateSyncRequestModel, hs, if_neg, if_false, ite_false]
          cases hu : getUser db sVal with
          | none => simp [hu, hopt, hpost, hs]
          | some user =>
            cases hm : getYClientsUserMapping db user.yclientsId with
            | none => simp [hu, hm, hopt, hpost, hs]
            | some um =>
              cases hr : loadRecordsForUser fe um.phone with
              | none => simp [hu, hm, hr, hopt, hpost, hs]
              | some records => simp [hu, hm, hr, hopt, hpost, hs]
    · simp [syncChatsModel, claimedSyncStatus, hopt, hpost]

/-- The database of the C8 counterexample: a user whose document id is the
empty string, together with its identity mapping. -/
def dbC8 : SyncDb :=
  { userMappings := [{ id := "y", clientId := 2, phone := "p",
                       userToken := "t", staffId := none }],
    users := [{ id := "", yclientsId := "y", name := "n",
                fcm_token := none, isNotificationsEnabled := none }],
    chatMappings := [], chats := [] }

/-- The fetch environment of the C8 counterexample: the id-scoped fetch
succeeds with one record. -/
def feC8 : FetchEnv :=
  { byId := some [{ id := 1, staff_id := 1,
                    client := some { id := 2, phone := "p" },
                    services := [], attendance := 0 }],
    allRecords := none }

/-- C8 counterexample: a POST whose body carries the empty string as
userId, which is present and is a string; the user and the identity
mapping exist and the upstream fetch succeeds, so the claim as stated
predicts a 200 response, but the endpoint rejects the falsy userId with
400. -/
theorem syncChats_status_counterexample :
    (syncChatsModel "POST" (BodyUserId.strVal "") dbC8 feC8 0).1.1 = 400
      ∧ (getUser dbC8 "").isSome = true
      ∧ (getYClientsUserMapping dbC8 "y").isSome = true
      ∧ loadRecordsForUser feC8 "p" ≠ none := by
  decide

/-- C8 amended-claim witness: the status characterization applied to a
concrete OPTIONS request and to a concrete 200 run, discharging the
200-implication at a concrete input. -/
theorem syncChats_status_characterization_witness :
    (syncChatsModel "OPTIONS" BodyUserId.absent dbC8 feC8 0).1.1
        = claimedSyncStatus "OPTIONS" BodyUserId.absent dbC8 feC8
      ∧ ((syncChatsModel "POST" (BodyUserId.strVal "") dbC8 feC8 0).1.1 = 200
          → ∃ msg st,
            (syncChatsModel "POST" (BodyUserId.strVal "") dbC8 feC8 0).1.2
              = RespBody.successBody msg st) :=
  ⟨(syncChats_status_characterization "OPTIONS" BodyUserId.absent dbC8 feC8
      0).1,
   (syncChats_status_characterization "POST" (BodyUserId.strVal "") dbC8 feC8
      0).2⟩

/-- A concrete deleted booking-record projection used by the C2 witness. -/
def sampleDeletedRecord : YClientsRecord :=
  { id := "r", recordId := 1, deleted := true, serviceTitle := none,
    serviceId := none, datetime := 0, attendance := 0, length := 3600,
    payment_status := 0 }

/-- C2 witness: the characterization applied to a concrete record at a
concrete clock. -/
theorem isRecordActive_characterization_witness :
    (sampleDeletedRecord.deleted = true
        ∨ sampleDeletedRecord.attendance = 1
        ∨ sampleDeletedRecord.attendance = -1)
      ∧ isRecordActive sampleDeletedRecord 0 = false :=
  ⟨Or.inl rfl,
   isRecordActive_characterization.2.2.2 sampleDeletedRecord 0 (Or.inl rfl)⟩


/-! ## C6, C9, C10: notification dispatcher claims -/

/-- The unread message of the notification-dispatcher scenarios, last
updated at epoch 70000 millis. -/
def msgC6 : Message :=
  { id := "m1", chatId := "c1", fromUserId := "a", toUserId := "u1",
    status := MessageStatus.delivered, createdAt := 0, updatedAt := 70000 }

/-- A pending notification referencing chat c1 and message m1. -/
def notifC6 : NotificationDoc :=
  { id := "n1", title := "t", text := "x", fromUserId := "a",
    toUserId := "u1", chatId := some "c1", messageId := some "m1",
    status := NotificationStatus.pending, createdAt := 0, updatedAt := 0 }

/-- The C6 counterexample environment: the referenced message exists and
is 30 seconds old, but the recipient user does not exist. -/
def envC6 : NotifEnv :=
  { getUser := fun _ => none,
    getMessage := fun cid mid =>
      if cid = "c1" ∧ mid = "m1" then some msgC6 else none,
    pushOutcome := true, now := 100000 }

/-- C6 counterexample: a pending notification carrying both references,
whose message exists, is unread and is 30 seconds old, is nevertheless not
left untouched by the pass: the recipient user is missing, so the
dispatcher removes it from the pending set before any message check. -/
theorem notificationDebounce_counterexample :
    notifC6.chatId = some "c1" ∧ notifC6.messageId = some "m1"
      ∧ envC6.getMessage "c1" "m1" = some msgC6
      ∧ msgC6.status ≠ MessageStatus.read
      ∧ envC6.now - msgC6.updatedAt < 60000
      ∧ (processNotification notifC6 envC6).removedFromPending = true := by
  decide

/-- C6 as amended: for a pending notification whose recipient user exists
and which carries both truthy references to an existing unread message,
the pass leaves every piece of state untouched while the message is
younger than 60 seconds, and once the message is at least 60 seconds old
it removes the notification from pending and writes a terminal sent or
failed record. -/
theorem notificationDebounce_amended :
    ∀ (n : NotificationDoc) (env : NotifEnv) (user : User)
      (cid mid : String) (msg : Message),
      env.getUser n.toUserId = some user →
      n.chatId = some cid → cid ≠ "" →
      n.messageId = some mid → mid ≠ "" →
      env.getMessage cid mid = some msg →
      msg.status ≠ MessageStatus.read →
      ((env.now - msg.updatedAt < 60000 →
          processNotification n env
            = { removedFromPending := false, sentRecord := none,
                pushAttempted := false })
        ∧ (60000 ≤ env.now - msg.updatedAt →
            (processNotification n env).removedFromPending = true
              ∧ ∃ s, (processNotification n env).sentRecord = some s
                ∧ (s = NotificationStatus.sent
                    ∨ s = NotificationStatus.failed))) := by
  intro n env user cid mid msg hu hcid hcne hmid hmne hmsg hread
  have hstep : processNotification n env
      = (if env.now - msg.updatedAt < 60000 then
          { removedFromPending := false, sentRecord := none,
            pushAttempted := false }
        else notifFcmGate user env) := by
    simp only [processNotification, hu, hmid, hcid]
    rw [if_pos ⟨hmne, hcne⟩]
    simp only [hmsg]
    rw [if_neg hread]
  constructor
  · intro hlt
    rw [hstep, if_pos hlt]
  · intro hge
    rw [hstep, if_neg (by omega)]
    unfold notifFcmGate
    by_cases hgate : optStrTruthy user.fcm_token = true
        ∧ user.isNotificationsEnabled ≠ some (some false)
    · rw [if_pos hgate]
      refine ⟨rfl, _, rfl, ?_⟩
      by_cases hp : env.pushOutcome <;> simp [hp]
    · rw [if_neg hgate]
      exact ⟨rfl, NotificationStatus.sent, rfl, Or.inl rfl⟩

/-- The recipient of the C6 amended-claim witness scenario. -/
def userC6 : User :=
  { id := "u1", yclientsId := "y1", name := "nm", fcm_token := some "tok",
    isNotificationsEnabled := none }

/-- The C6 witness environment: the recipient exists and the referenced
message is 30 seconds old. -/
def envC6b : NotifEnv :=
  { getUser := fun uid => if uid = "u1" then some userC6 else none,
    getMessage := fun cid mid =>
      if cid = "c1" ∧ mid = "m1" then some msgC6 else none,
    pushOutcome := true, now := 100000 }

/-- C6 amended-claim witness: the debounce theorem applied to the concrete
held notification, every hypothesis discharged at concrete inputs. -/
theorem notificationDebounce_amended_witness :
    (envC6b.getUser notifC6.toUserId = some userC6
        ∧ envC6b.getMessage "c1" "m1" = some msgC6
        ∧ msgC6.status ≠ MessageStatus.read
        ∧ envC6b.now - msgC6.updatedAt < 60000)
      ∧ processNotification notifC6 envC6b
        = { removedFromPending := false, sentRecord := none,
            pushAttempted := false } :=
  ⟨⟨by decide, by decide, by decide, by decide⟩,
   (notificationDebounce_amended notifC6 envC6b userC6 "c1" "m1" msgC6
      (by decide) (by decide) (by decide) (by decide) (by decide)
      (by decide) (by decide)).1 (by decide)⟩

/-- A pending notification with no chat or message reference, addressed to
a missing user. -/
def notifC9 : NotificationDoc :=
  { id := "n2", title := "t2", text := "x2", fromUserId := "b",
    toUserId := "ghost", chatId := none, messageId := none,
    status := NotificationStatus.pending, createdAt := 0, updatedAt := 0 }

/-- The C9 counterexample environment: no user resolves. -/
def envC9 : NotifEnv :=
  { getUser := fun _ => none, getMessage := fun _ _ => none,
    pushOutcome := true, now := 0 }

/-- C9 counterexample: a pending notification with both references absent
does not always reach the push-token gating and a terminal sent or failed
transition in the same pass: when the recipient user is missing it is
removed with no sent-history record and no push attempt. -/
theorem notificationNoRefs_counterexample :
    notifC9.messageId = none
      ∧ (processNotification notifC9 envC9).sentRecord = none
      ∧ (processNotification notifC9 envC9).pushAttempted = false
      ∧ (processNotification notifC9 envC9).removedFromPending = true := by
  decide

/-- C9 as amended: for a pending notification whose recipient user exists,
the absence of the messageId or of the chatId makes the pass skip every
message check and go directly to the push-token gate, which always ends in
a terminal transition: removed from pending with a sent-history record
written. -/
theorem notificationNoRefs_amended :
    ∀ (n : NotificationDoc) (env : NotifEnv) (user : User),
      env.getUser n.toUserId = some user →
      (n.messageId = none ∨ n.chatId = none) →
      processNotification n env = notifFcmGate user env
        ∧ (notifFcmGate user env).removedFromPending = true
        ∧ ((notifFcmGate user env).sentRecord).isSome = true := by
  intro n env user hu href
  have heq : processNotification n env = notifFcmGate user env := by
    rcases href with h | h
    · cases hch : n.chatId <;>
        simp [processNotification, hu, h, hch]
    · cases hmm : n.messageId <;>
        simp [processNotification, hu, h, hmm]
  refine ⟨heq, ?_, ?_⟩
  · unfold notifFcmGate
    split <;> rfl
  · unfold notifFcmGate
    split <;> rfl

/-- The recipient of the C9 amended-claim witness scenario: no push token,
notifications not disabled. -/
def userC9 : User :=
  { id := "g", yclientsId := "yg", name := "nm", fcm_token := none,
    isNotificationsEnabled := none }

/-- The C9 witness environment: the recipient exists. -/
def envC9b : NotifEnv :=
  { getUser := fun uid => if uid = "ghost" then some userC9 else none,
    getMessage := fun _ _ => none, pushOutcome := false, now := 0 }

/-- C9 amended-claim witness: the skip-to-gate theorem applied to the
concrete reference-free notification, hypotheses discharged at concrete
inputs. -/
theorem notificationNoRefs_amended_witness :
    (envC9b.getUser notifC9.toUserId = some userC9
        ∧ notifC9.messageId = none)
      ∧ processNotification notifC9 envC9b = notifFcmGate userC9 envC9b
      ∧ (notifFcmGate userC9 envC9b).removedFromPending = true
      ∧ ((notifFcmGate userC9 envC9b).sentRecord).isSome = true :=
  ⟨⟨by decide, by decide⟩,
   notificationNoRefs_amended notifC9 envC9b userC9 (by decide)
     (Or.inl (by decide))⟩

/-- C10: whenever a pass reaches the push gating (the recipient exists and
either a message reference is missing or the referenced message exists,
is unread and is at least 60 seconds old), a push delivery is attempted
exactly when the recipient has a non-empty fcm token and
isNotificationsEnabled is not strictly false (absent and null count as
enabled); with no token or an explicit false the notification moves to
terminal status sent with no push attempt; and an attempted push ends in
sent or failed according to the gateway outcome. -/
theorem pushGate_characterization :
    ∀ (n : NotificationDoc) (env : NotifEnv) (user : User),
      env.getUser n.toUserId = some user →
      ((n.messageId = none ∨ n.chatId = none)
        ∨ (∃ cid mid msg, n.chatId = some cid ∧ n.messageId = some mid
            ∧ env.getMessage cid mid = some msg
            ∧ msg.status ≠ MessageStatus.read
            ∧ 60000 ≤ env.now - msg.updatedAt)) →
      ((processNotification n env).pushAttempted = true
          ↔ (optStrTruthy user.fcm_token = true
              ∧ user.isNotificationsEnabled ≠ some (some false)))
        ∧ ((optStrTruthy user.fcm_token = false
              ∨ user.isNotificationsEnabled = some (some false)) →
            processNotification n env
              = { removedFromPending := true,
                  sentRecord := some NotificationStatus.sent,
                  pushAttempted := false })
        ∧ ((processNotification n env).pushAttempted = true →
            (processNotification n env).sentRecord
              = some (if env.pushOutcome then NotificationStatus.sent
                      else NotificationStatus.failed)) := by
  intro n env user hu hreach
  have heq : processNotification n env = notifFcmGate user env := by
    rcases hreach with href | ⟨cid, mid, msg, hcid, hmid, hmsg, hread, hage⟩
    · rcases href with h | h
      · cases hch : n.chatId <;>
          simp [processNotification, hu, h, hch]
      · cases hmm : n.messageId <;>
          simp [processNotification, hu, h, hmm]
    · simp only [processNotification, hu, hmid, hcid]
      by_cases hne : mid ≠ "" ∧ cid ≠ ""
      · rw [if_pos hne]
        simp only [hmsg]
        rw [if_neg hread, if_neg (by omega)]
      · rw [if_neg hne]
  rw [heq]
  unfold notifFcmGate
  by_cases hgate : optStrTruthy user.fcm_token = true
      ∧ user.isNotificationsEnabled ≠ some (some false)
  · rw [if_pos hgate]
    refine ⟨by simp [hgate], ?_, fun _ => rfl⟩
    intro hcontra
    exfalso
    rcases hcontra with h | h
    · rw [hgate.1] at h
      cases h
    · exact hgate.2 h
  · rw [if_neg hgate]
    refine ⟨by simp [hgate], fun _ => rfl, ?_⟩
    intro h
    cases h

/-- The recipient of the C10 witness scenario: notifications explicitly
disabled. -/
def userC10 : User :=
  { id := "w", yclientsId := "yw", name := "nm", fcm_token := some "tk",
    isNotificationsEnabled := some (some false) }

/-- A pending notification with no chat reference, addressed to the C10
recipient. -/
def notifC10 : NotificationDoc :=
  { id := "n3", title := "t3", text := "x3", fromUserId := "c",
    toUserId := "w", chatId := none, messageId := some "mX",
    status := NotificationStatus.pending, createdAt := 0, updatedAt := 0 }

/-- The C10 witness environment: the recipient exists. -/
def envC10 : NotifEnv :=
  { getUser := fun uid => if uid = "w" then some userC10 else none,
    getMessage := fun _ _ => none, pushOutcome := true, now := 0 }

/-- C10 witness: the gate characterization applied to a concrete
notification whose recipient disabled notifications, hypotheses discharged
at concrete inputs. -/
theorem pushGate_characterization_witness :
    (envC10.getUser notifC10.toUserId = some userC10
        ∧ notifC10.chatId = none
        ∧ userC10.isNotificationsEnabled = some (some false))
      ∧ processNotification notifC10 envC10
        = { removedFromPending := true,
            sentRecord := some NotificationStatus.sent,
            pushAttempted := false } :=
  ⟨⟨by decide, by decide, by decide⟩,
   (pushGate_characterization notifC10 envC10 userC10 (by decide)
      (Or.inl (Or.inr (by decide)))).2.1 (Or.inr (by decide))⟩
